import Mathlib

set_option maxRecDepth 8000000
set_option maxHeartbeats 4000000

/-!
Verification development for the mdaudiobook text-enhancement core.

Shallow embedding of `src/mdaudiobook/text_enhancer.py` and
`src/mdaudiobook/audiobook_generator.py` (the pure, in-process parts:
the regex-fallback LaTeX transducer, the auto math wrapper, citation
naturalization, the document traversal that builds `EnhancedText`, the
chapter splitter and the validation check).

Python strings are modelled as `List Char`.  The Python `re` module is
modelled by a small backtracking matcher (`mtch`) over a regex AST `RE`,
with Python's ordering semantics: leftmost match, alternatives tried
left to right, greedy quantifiers try longer first, lazy quantifiers
shorter first.  The concrete patterns of the source are written as the
exact pattern strings and parsed by `pat` / `rep` below.
-/

namespace Mdaudiobook

abbrev Str := List Char

/-- Convert a Lean string literal to our character-list model. -/
def str (s : String) : Str := s.data

/-- Python `\w` (ASCII fragment, which is all the source's inputs use). -/
def isWordChar (c : Char) : Bool := c.isAlpha || c.isDigit || c = '_'

/-- Python `\s` / `str.strip` whitespace (ASCII fragment). -/
def isSpaceChar (c : Char) : Bool :=
  c = ' ' || c = '\t' || c = '\n' || c = '\r' || c = '\x0b' || c = '\x0c'

/-- Python `str.strip()`. -/
def pyStrip (s : Str) : Str :=
  ((s.dropWhile isSpaceChar).reverse.dropWhile isSpaceChar).reverse

/-- Python slice `s[a:b]` for non-negative indices (clamping included). -/
def pySlice (s : Str) (a b : Nat) : Str := (s.take b).drop a

/-- Boolean "needle is a prefix of haystack" check. -/
def startsWithStr : Str → Str → Bool
  | [], _ => true
  | _ :: _, [] => false
  | a :: as, b :: bs => a = b && startsWithStr as bs

/-- Python `str.replace(old, new)`: replace all non-overlapping occurrences,
left to right.  (All uses in the source have a non-empty `old`.) -/
def pyReplaceAux : Nat → Str → Str → Str → Str
  | 0, _, _, s => s
  | fuel + 1, old, new, s =>
    if startsWithStr old s && !old.isEmpty then
      new ++ pyReplaceAux fuel old new (s.drop old.length)
    else
      match s with
      | [] => []
      | c :: cs => c :: pyReplaceAux fuel old new cs

def pyReplace (s old new : Str) : Str := pyReplaceAux (s.length + 1) old new s

/-- Python `str.count(sub)`: non-overlapping occurrence count
(non-empty `sub` in all uses). -/
def pyCountAux : Nat → Str → Str → Nat
  | 0, _, _ => 0
  | fuel + 1, needle, s =>
    if startsWithStr needle s && !needle.isEmpty then
      1 + pyCountAux fuel needle (s.drop needle.length)
    else
      match s with
      | [] => 0
      | _ :: cs => pyCountAux fuel needle cs

def pyCount (s needle : Str) : Nat := pyCountAux (s.length + 1) needle s

/-- Python `str.split()` with no arguments: split on whitespace runs,
dropping empty pieces. -/
def pySplitWsAux : Nat → Str → Str → List Str
  | 0, acc, _ => if acc.isEmpty then [] else [acc.reverse]
  | fuel + 1, acc, s =>
    match s with
    | [] => if acc.isEmpty then [] else [acc.reverse]
    | c :: cs =>
      if isSpaceChar c then
        (if acc.isEmpty then [] else [acc.reverse]) ++ pySplitWsAux fuel [] cs
      else pySplitWsAux fuel (c :: acc) cs

def pySplitWs (s : Str) : List Str := pySplitWsAux (s.length + 1) [] s

/-- Python `str.split(sep)` for a one-character separator (`'\n'` in the
source); keeps empty pieces, and `''.split(sep) = ['']`. -/
def pySplitCharAux : Nat → Char → Str → Str → List Str
  | 0, _, acc, s => [acc.reverse ++ s]
  | fuel + 1, sep, acc, s =>
    match s with
    | [] => [acc.reverse]
    | c :: cs =>
      if c = sep then acc.reverse :: pySplitCharAux fuel sep [] cs
      else pySplitCharAux fuel sep (c :: acc) cs

def pySplitChar (s : Str) (sep : Char) : List Str :=
  pySplitCharAux (s.length + 1) sep [] s

/-! Regex AST and backtracking matcher. -/

/-- One item of a character class. -/
inductive CItem where
  | one (c : Char)
  | rng (a b : Char)
  | word
  | space
  | digit
deriving DecidableEq, Repr

def CItem.hits : CItem → Char → Bool
  | .one a, c => c = a
  | .rng a b, c => a ≤ c && c ≤ b
  | .word, c => isWordChar c
  | .space, c => isSpaceChar c
  | .digit, c => c.isDigit

/-- Regex AST covering exactly the constructs the source's patterns use. -/
inductive RE where
  | eps
  | lit (c : Char)
  | cls (neg : Bool) (items : List CItem)
  | dot (dotall : Bool)
  | seq (a b : RE)
  | alt (a b : RE)
  | star (lazy : Bool) (r : RE)
  | grp (n : Nat) (r : RE)
  | wordB
  | caret (multiline : Bool)
deriving DecidableEq, Repr

/-- Captured groups, most recent first (`lookup` finds the last capture,
as in Python). -/
abbrev Groups := List (Nat × Str)

/-- Backtracking matcher in continuation-passing style.  The continuation
receives the previous character (for `\b` and `^`), the remaining input
and the captured groups; the first success in Python's preference order
wins.  `fuel` only bounds the depth of one backtracking path and is set
generously by the callers. -/
def mtch : Nat → RE → Option Char → Str → Groups →
    (Option Char → Str → Groups → Option (Groups × Str)) → Option (Groups × Str)
  | 0, _, _, _, _, _ => none
  | fuel + 1, re, prev, s, g, k =>
    match re with
    | .eps => k prev s g
    | .lit c =>
      match s with
      | [] => none
      | c' :: s' => if c' = c then k (some c') s' g else none
    | .cls neg items =>
      match s with
      | [] => none
      | c' :: s' => if (items.any (·.hits c')) ≠ neg then k (some c') s' g else none
    | .dot dotall =>
      match s with
      | [] => none
      | c' :: s' => if dotall || c' ≠ '\n' then k (some c') s' g else none
    | .seq a b => mtch fuel a prev s g (fun p' s' g' => mtch fuel b p' s' g' k)
    | .alt a b => (mtch fuel a prev s g k).orElse (fun _ => mtch fuel b prev s g k)
    | .star lzy r =>
      let once := fun (kk : Option Char → Str → Groups → Option (Groups × Str)) =>
        mtch fuel r prev s g (fun p' s' g' =>
          if s'.length < s.length then kk p' s' g' else none)
      if lzy then
        (k prev s g).orElse (fun _ =>
          once (fun p' s' g' => mtch fuel (.star lzy r) p' s' g' k))
      else
        (once (fun p' s' g' => mtch fuel (.star lzy r) p' s' g' k)).orElse
          (fun _ => k prev s g)
    | .grp n r =>
      mtch fuel r prev s g (fun p' s' g' =>
        k p' s' ((n, s.take (s.length - s'.length)) :: g'))
    | .wordB =>
      let pw := match prev with | some c => isWordChar c | none => false
      let nw := match s with | c :: _ => isWordChar c | [] => false
      if pw ≠ nw then k prev s g else none
    | .caret ml =>
      match prev with
      | none => k prev s g
      | some c => if ml && c = '\n' then k prev s g else none

/-- Structural size of a regex, used only to pick enough matcher fuel. -/
def RE.size : RE → Nat
  | .eps | .lit _ | .cls _ _ | .dot _ | .wordB | .caret _ => 1
  | .seq a b | .alt a b => a.size + b.size + 1
  | .star _ r | .grp _ r => r.size + 1

/-- Fuel bound: one backtracking path visits each AST node at most once
per star iteration, and every star iteration consumes input. -/
def fuelFor (re : RE) (s : Str) : Nat := (re.size + 2) * (s.length + 2) + 2

/-- Try to match `re` at the start of `s` (with `prev` the character just
before `s`, for `\b` and `^`).  Returns the captured groups and the rest. -/
def matchHere (re : RE) (prev : Option Char) (s : Str) : Option (Groups × Str) :=
  mtch (fuelFor re s) re prev s [] (fun _ s' g => some (g, s'))

/-- Digit-list to number (avoiding `String.toNat?`, which does not reduce
definitionally). -/
def digitsToNat (ds : Str) : Nat :=
  ds.foldl (fun n c => n * 10 + (c.toNat - '0'.toNat)) 0

/-- One token of a `re.sub` replacement template. -/
inductive RTok where
  | lit (c : Char)
  | ref (n : Nat)
deriving DecidableEq, Repr

/-- Instantiate a replacement template; a group that did not participate
in the match is replaced by the empty string, as `re.sub` does. -/
def applyRepl (g : Groups) : List RTok → Str
  | [] => []
  | .lit c :: rest => c :: applyRepl g rest
  | .ref n :: rest => ((g.lookup n).getD []) ++ applyRepl g rest

/-- `re.sub` scanning loop: leftmost matches, non-overlapping; after an
empty match the scan advances by one character. -/
def subAux : Nat → RE → List RTok → Option Char → Str → Str
  | 0, _, _, _, s => s
  | fuel + 1, re, t, prev, s =>
    match matchHere re prev s with
    | some (g, rest) =>
      let m := s.take (s.length - rest.length)
      if m.isEmpty then
        match rest with
        | [] => applyRepl g t
        | c :: cs => applyRepl g t ++ c :: subAux fuel re t (some c) cs
      else applyRepl g t ++ subAux fuel re t m.getLast? rest
    | none =>
      match s with
      | [] => []
      | c :: cs => c :: subAux fuel re t (some c) cs

/-- Python `re.sub(pattern, template, s)`. -/
def reSub (re : RE) (t : List RTok) (s : Str) : Str := subAux (s.length + 2) re t none s

/-- Python `re.search(pattern, s) is not None`. -/
def searchAux : Nat → RE → Option Char → Str → Bool
  | 0, _, _, _ => false
  | fuel + 1, re, prev, s =>
    match matchHere re prev s with
    | some _ => true
    | none =>
      match s with
      | [] => false
      | c :: cs => searchAux fuel re (some c) cs

def reSearch (re : RE) (s : Str) : Bool := searchAux (s.length + 2) re none s

/-- Python `re.split(pattern, s)` for a group-free pattern that cannot
match the empty string (`[.!?]+` is the only pattern split on). -/
def splitREAux : Nat → RE → Option Char → Str → Str → List Str
  | 0, _, _, acc, s => [acc ++ s]
  | fuel + 1, re, prev, acc, s =>
    match matchHere re prev s with
    | some (_, rest) =>
      let m := s.take (s.length - rest.length)
      if m.isEmpty then
        match s with
        | [] => [acc]
        | c :: cs => splitREAux fuel re (some c) (acc ++ [c]) cs
      else acc :: splitREAux fuel re m.getLast? [] rest
    | none =>
      match s with
      | [] => [acc]
      | c :: cs => splitREAux fuel re (some c) (acc ++ [c]) cs

def reSplit (re : RE) (s : Str) : List Str := splitREAux (s.length + 2) re none [] s

/-! Parser for the exact pattern strings appearing in the source, covering
the `re` syntax subset they use: literals, escapes, character classes with
ranges and negation, `( )` and `(?: )` groups, `|`, `* + ?` with lazy
variants, `.`, `^`, `\b`, `\s`, `\w`, `\d`. -/

/-- Escape of a character outside a class (`\x`). -/
def escapeRE (c : Char) : Option RE :=
  if c = 'b' then some .wordB
  else if c = 's' then some (.cls false [.space])
  else if c = 'w' then some (.cls false [.word])
  else if c = 'd' then some (.cls false [.digit])
  else if c = 'n' then some (.lit '\n')
  else if c = 't' then some (.lit '\t')
  else if c = 'r' then some (.lit '\r')
  else if isWordChar c then none
  else some (.lit c)

/-- Escape of a character inside a class. -/
def escapeCls (c : Char) : Option CItem :=
  if c = 's' then some .space
  else if c = 'w' then some .word
  else if c = 'd' then some .digit
  else if c = 'n' then some (.one '\n')
  else if c = 't' then some (.one '\t')
  else if c = 'r' then some (.one '\r')
  else if isWordChar c then none
  else some (.one c)

/-- Parse the items of a character class up to the closing `]`. -/
def parseClsItems : Nat → Str → Option (List CItem × Str)
  | 0, _ => none
  | fuel + 1, s =>
    match s with
    | ']' :: rest => some ([], rest)
    | '\\' :: e :: rest =>
      match escapeCls e with
      | none => none
      | some it =>
        match parseClsItems fuel rest with
        | none => none
        | some (its, rest') => some (it :: its, rest')
    | a :: '-' :: b :: rest =>
      if b = ']' then
        match parseClsItems fuel (b :: rest) with
        | none => none
        | some (its, rest') => some (.one a :: .one '-' :: its, rest')
      else
        match parseClsItems fuel rest with
        | none => none
        | some (its, rest') => some (.rng a b :: its, rest')
    | c :: rest =>
      match parseClsItems fuel rest with
      | none => none
      | some (its, rest') => some (.one c :: its, rest')
    | [] => none

/-- Parse a whole class body (after the opening `[`): negation flag, a
literal `]` allowed as first item, then items. -/
def parseClsBody (fuel : Nat) (s : Str) : Option (RE × Str) :=
  let (neg, s1) := match s with
    | '^' :: rest => (true, rest)
    | _ => (false, s)
  let (first, s2) : List CItem × Str := match s1 with
    | ']' :: rest => ([CItem.one ']'], rest)
    | _ => ([], s1)
  match parseClsItems fuel s2 with
  | none => none
  | some (its, rest) => some (.cls neg (first ++ its), rest)

/-- Parser modes: alternation / concatenation / single quantified item /
single atom. -/
inductive PMode where
  | palt
  | pcat
  | pitem
  | patom

/-- Recursive-descent pattern parser; `gc` numbers capture groups in order
of their opening parentheses, as Python does. -/
def parseP : Nat → PMode → Nat → Str → Option (RE × Nat × Str)
  | 0, _, _, _ => none
  | fuel + 1, mode, gc, s =>
    match mode with
    | .palt =>
      match parseP fuel .pcat gc s with
      | none => none
      | some (r, gc', rest) =>
        match rest with
        | '|' :: rest' =>
          match parseP fuel .palt gc' rest' with
          | none => none
          | some (r2, gc'', rest'') => some (.alt r r2, gc'', rest'')
        | _ => some (r, gc', rest)
    | .pcat =>
      match s with
      | [] => some (.eps, gc, [])
      | ')' :: _ => some (.eps, gc, s)
      | '|' :: _ => some (.eps, gc, s)
      | _ =>
        match parseP fuel .pitem gc s with
        | none => none
        | some (r, gc', rest) =>
          match parseP fuel .pcat gc' rest with
          | none => none
          | some (r2, gc'', rest') => some (.seq r r2, gc'', rest')
    | .pitem =>
      match parseP fuel .patom gc s with
      | none => none
      | some (r, gc', rest) =>
        match rest with
        | '*' :: '?' :: rest' => some (.star true r, gc', rest')
        | '*' :: rest' => some (.star false r, gc', rest')
        | '+' :: '?' :: rest' => some (.seq r (.star true r), gc', rest')
        | '+' :: rest' => some (.seq r (.star false r), gc', rest')
        | '?' :: '?' :: rest' => some (.alt .eps r, gc', rest')
        | '?' :: rest' => some (.alt r .eps, gc', rest')
        | _ => some (r, gc', rest)
    | .patom =>
      match s with
      | '(' :: '?' :: ':' :: rest =>
        (match parseP fuel .palt gc rest with
         | some (r, gc', ')' :: rest') => some (r, gc', rest')
         | _ => none)
      | '(' :: rest =>
        (match parseP fuel .palt (gc + 1) rest with
         | some (r, gc', ')' :: rest') => some (.grp (gc + 1) r, gc', rest')
         | _ => none)
      | '[' :: rest =>
        (match parseClsBody fuel rest with
         | some (r, rest') => some (r, gc, rest')
         | none => none)
      | '.' :: rest => some (.dot false, gc, rest)
      | '^' :: rest => some (.caret false, gc, rest)
      | '\\' :: e :: rest =>
        (match escapeRE e with
         | some r => some (r, gc, rest)
         | none => none)
      | c :: rest =>
        if c = '*' || c = '+' || c = '?' || c = ')' || c = '|' || c = '\\' then none
        else some (.lit c, gc, rest)
      | [] => none

/-- Parse a pattern string; ill-formed patterns (none occur in the source)
fall back to a regex that matches nothing. -/
def pat (p : String) : RE :=
  match parseP (6 * p.length + 8) .palt 0 p.data with
  | some (r, _, []) => r
  | _ => .cls false []

/-- Set the DOTALL flag on every `.` of a parsed pattern (the source
compiles exactly one pattern with `re.DOTALL`). -/
def RE.dotall : RE → RE
  | .dot _ => .dot true
  | .seq a b => .seq a.dotall b.dotall
  | .alt a b => .alt a.dotall b.dotall
  | .star l r => .star l r.dotall
  | .grp n r => .grp n r.dotall
  | r => r

/-- Parse a `re.sub` replacement template: `\g<n>` group references,
`\\` escapes, everything else literal. -/
def parseRepl : Nat → Str → List RTok
  | 0, _ => []
  | fuel + 1, s =>
    match s with
    | [] => []
    | '\\' :: 'g' :: '<' :: rest =>
      let digits := rest.takeWhile (·.isDigit)
      let rest' := rest.dropWhile (·.isDigit)
      (match rest' with
       | '>' :: rest'' =>
         .ref (digitsToNat digits) :: parseRepl fuel rest''
       | _ => .lit '\\' :: parseRepl fuel (('g' : Char) :: '<' :: rest))
    | '\\' :: '\\' :: rest => .lit '\\' :: parseRepl fuel rest
    | c :: rest => .lit c :: parseRepl fuel rest

def rep (t : String) : List RTok := parseRepl (t.length + 1) t.data

/-! The regex-fallback LaTeX → speech transducer
(`TextEnhancer.latex_to_speech`, `_handle_complex_latex_structures`,
`_fallback_latex_to_speech`). -/

/-- The ordered rule table `self.latex_to_speech`, in Python dict
insertion order (each entry is the exact pattern / replacement pair of
the source). -/
def latex_to_speech : List (RE × List RTok) := [
  (pat "\\bP\\(([^)]+)\\)", rep "probability of \\g<1>"),
  (pat "\\bE\\[([^\\]]+)\\]", rep "expected value of \\g<1>"),
  (pat "\\bVar\\(([^)]+)\\)", rep "variance of \\g<1>"),
  (pat "\\bSD\\(([^)]+)\\)", rep "standard deviation of \\g<1>"),
  (pat "\\bCov\\(([^,]+),\\s*([^)]+)\\)", rep "covariance of \\g<1> and \\g<2>"),
  (pat "\\bCorr\\(([^,]+),\\s*([^)]+)\\)", rep "correlation of \\g<1> and \\g<2>"),
  (pat "\\\\frac\\\x7b([^\x7b\x7d]+)\\\x7d\\\x7b([^\x7b\x7d]+)\\\x7d", rep "\\g<1> over \\g<2>"),
  (pat "\\\\sqrt\\\x7b([^\x7b\x7d]+)\\\x7d", rep "the square root of \\g<1>"),
  (pat "\\\\sqrt\\[([^]]+)\\]\\\x7b([^\x7b\x7d]+)\\\x7d", rep "the \\g<1>-th root of \\g<2>"),
  (pat "\\\\sum_\\\x7b([^\x7d]+)\\\x7d\\^\\\x7b([^\x7d]+)\\\x7d", rep "the sum from \\g<1> to \\g<2> of"),
  (pat "\\\\sum", rep " the sum of "),
  (pat "\\\\int_\\\x7b([^\x7d]+)\\\x7d\\^\\\x7b([^\x7d]+)\\\x7d", rep "the integral from \\g<1> to \\g<2> of"),
  (pat "\\\\int", rep " the integral of "),
  (pat "\\\\oint", rep " the contour integral of "),
  (pat "\\\\lim_\\\x7b([^\x7d]+)\\\\to\\s*([^\x7d]+)\\\x7d", rep "the limit as \\g<1> approaches \\g<2> of"),
  (pat "\\\\lim_\\\x7b([^\x7d]+)\\\x7d", rep "the limit as \\g<1> of"),
  (pat "\\\\prod_\\\x7b([^\x7d]+)\\\x7d\\^\\\x7b([^\x7d]+)\\\x7d", rep "the product from \\g<1> to \\g<2> of"),
  (pat "\\\\prod", rep " the product of "),
  (pat "\\\\frac\\\x7bd\\\x7d\\\x7bd([^\x7d]+)\\\x7d", rep "the derivative with respect to \\g<1> of"),
  (pat "\\\\frac\\\x7b\\\\partial\\\x7d\\\x7b\\\\partial\\s*([^\x7d]+)\\\x7d", rep "the partial derivative with respect to \\g<1> of"),
  (pat "\\\\partial\\^\\\x7b([^\x7d]+)\\\x7d", rep "partial to the power of \\g<1>"),
  (pat "\\\\partial", rep " partial "),
  (pat "\\\\nabla\\^\\\x7b([^\x7d]+)\\\x7d", rep "del operator to the power of \\g<1>"),
  (pat "\\\\nabla", rep " del operator "),
  (pat "([a-zA-Z])\\^\\\x7b([^\x7d]+)\\\x7d", rep "\\g<1> to the power of \\g<2>"),
  (pat "([a-zA-Z])_\\\x7b([^\x7d]+)\\\x7d", rep "\\g<1> subscript \\g<2>"),
  (pat "\\^\\\x7b([^\x7d]+)\\\x7d", rep " to the power of \\g<1>"),
  (pat "_\\\x7b([^\x7d]+)\\\x7d", rep " subscript \\g<1>"),
  (pat "\\\\langle\\s*([^|]+)\\s*\\|\\s*([^\\rangle]+)\\s*\\\\rangle", rep "the inner product of \\g<1> and \\g<2>"),
  (pat "\\\\braket\\\x7b([^\x7d]+)\\\x7d\\\x7b([^\x7d]+)\\\x7d", rep "the inner product of \\g<1> and \\g<2>"),
  (pat "\\|([^\\rangle|]+)\\\\rangle", rep "ket \\g<1>"),
  (pat "\\\\langle([^|]+)\\|", rep "bra \\g<1>"),
  (pat "\\\\bra\\\x7b([^\x7d]+)\\\x7d", rep "bra \\g<1>"),
  (pat "\\\\ket\\\x7b([^\x7d]+)\\\x7d", rep "ket \\g<1>"),
  (pat "\\\\alpha", rep " alpha "),
  (pat "\\\\beta", rep " beta "),
  (pat "\\\\gamma", rep " gamma "),
  (pat "\\\\delta", rep " delta "),
  (pat "\\\\epsilon", rep " epsilon "),
  (pat "\\\\varepsilon", rep " epsilon "),
  (pat "\\\\zeta", rep " zeta "),
  (pat "\\\\eta", rep " eta "),
  (pat "\\\\theta", rep " theta "),
  (pat "\\\\vartheta", rep " theta "),
  (pat "\\\\iota", rep " iota "),
  (pat "\\\\kappa", rep " kappa "),
  (pat "\\\\lambda", rep " lambda "),
  (pat "\\\\mu", rep " mu "),
  (pat "\\\\nu", rep " nu "),
  (pat "\\\\xi", rep " xi "),
  (pat "\\\\pi", rep " pi "),
  (pat "\\\\varpi", rep " pi "),
  (pat "\\\\rho", rep " rho "),
  (pat "\\\\varrho", rep " rho "),
  (pat "\\\\sigma", rep " sigma "),
  (pat "\\\\varsigma", rep " sigma "),
  (pat "\\\\tau", rep " tau "),
  (pat "\\\\upsilon", rep " upsilon "),
  (pat "\\\\phi", rep " phi "),
  (pat "\\\\varphi", rep " phi "),
  (pat "\\\\chi", rep " chi "),
  (pat "\\\\psi", rep " psi "),
  (pat "\\\\omega", rep " omega "),
  (pat "\\\\Gamma", rep " capital gamma "),
  (pat "\\\\Delta", rep " capital delta "),
  (pat "\\\\Theta", rep " capital theta "),
  (pat "\\\\Lambda", rep " capital lambda "),
  (pat "\\\\Xi", rep " capital xi "),
  (pat "\\\\Pi", rep " capital pi "),
  (pat "\\\\Sigma", rep " capital sigma "),
  (pat "\\\\Upsilon", rep " capital upsilon "),
  (pat "\\\\Phi", rep " capital phi "),
  (pat "\\\\Psi", rep " capital psi "),
  (pat "\\\\Omega", rep " capital omega "),
  (pat "\\\\cdot", rep " times "),
  (pat "\\\\times", rep " cross product "),
  (pat "\\\\div", rep " divided by "),
  (pat "\\\\pm", rep " plus or minus "),
  (pat "\\\\mp", rep " minus or plus "),
  (pat "\\\\leq", rep " is less than or equal to "),
  (pat "\\\\le\\b", rep " is less than or equal to "),
  (pat "\\\\geq", rep " is greater than or equal to "),
  (pat "\\\\ge", rep " is greater than or equal to "),
  (pat "\\\\neq", rep " is not equal to "),
  (pat "\\\\approx", rep " is approximately equal to "),
  (pat "\\\\equiv", rep " is equivalent to "),
  (pat "\\\\sim", rep " is similar to "),
  (pat "\\\\propto", rep " is proportional to "),
  (pat "\\\\in\\b", rep " is an element of "),
  (pat "\\\\notin\\b", rep " is not an element of "),
  (pat "\\\\subset", rep " is a subset of "),
  (pat "\\\\subseteq", rep " is a subset of or equal to "),
  (pat "\\\\supset", rep " is a superset of "),
  (pat "\\\\supseteq", rep " is a superset of or equal to "),
  (pat "\\\\cup", rep " union "),
  (pat "\\\\cap", rep " intersection "),
  (pat "\\\\emptyset", rep " the empty set "),
  (pat "\\\\varnothing", rep " the empty set "),
  (pat "\\\\forall", rep " for all "),
  (pat "\\\\exists", rep " there exists "),
  (pat "\\\\nexists", rep " there does not exist "),
  (pat "\\\\sin", rep " sine of "),
  (pat "\\\\cos", rep " cosine of "),
  (pat "\\\\tan", rep " tangent of "),
  (pat "\\\\sec", rep " secant of "),
  (pat "\\\\csc", rep " cosecant of "),
  (pat "\\\\cot", rep " cotangent of "),
  (pat "\\\\arcsin", rep " arcsine of "),
  (pat "\\\\arccos", rep " arccosine of "),
  (pat "\\\\arctan", rep " arctangent of "),
  (pat "\\\\sinh", rep " hyperbolic sine of "),
  (pat "\\\\cosh", rep " hyperbolic cosine of "),
  (pat "\\\\tanh", rep " hyperbolic tangent of "),
  (pat "\\\\ln", rep " natural log of "),
  (pat "\\\\log", rep " log of "),
  (pat "\\\\exp", rep " exponential of "),
  (pat "\\\\mathbf\\\x7b([^\x7d]+)\\\x7d", rep "bold \\g<1>"),
  (pat "\\\\vec\\\x7b([^\x7d]+)\\\x7d", rep "vector \\g<1>"),
  (pat "\\\\hat\\\x7b([^\x7d]+)\\\x7d", rep "\\g<1> hat"),
  (pat "\\\\bar\\\x7b([^\x7d]+)\\\x7d", rep "\\g<1> bar"),
  (pat "\\\\tilde\\\x7b([^\x7d]+)\\\x7d", rep "\\g<1> tilde"),
  (pat "\\\\dot\\\x7b([^\x7d]+)\\\x7d", rep "\\g<1> dot"),
  (pat "\\\\ddot\\\x7b([^\x7d]+)\\\x7d", rep "\\g<1> double dot"),
  (pat "\\\\begin\\\x7bpmatrix\\\x7d([^\\\\]+)\\\\end\\\x7bpmatrix\\\x7d", rep "the matrix \\g<1>"),
  (pat "\\\\begin\\\x7bbmatrix\\\x7d([^\\\\]+)\\\\end\\\x7bbmatrix\\\x7d", rep "the matrix \\g<1>"),
  (pat "\\\\begin\\\x7bvmatrix\\\x7d([^\\\\]+)\\\\end\\\x7bvmatrix\\\x7d", rep "the determinant of \\g<1>"),
  (pat "\\\\\\\\", rep " and "),
  (pat "&", rep " "),
  (pat "\\\\infty", rep " infinity "),
  (pat "\\\\ldots", rep " dot dot dot "),
  (pat "\\\\cdots", rep " dot dot dot "),
  (pat "\\\\vdots", rep " vertical dots "),
  (pat "\\\\ddots", rep " diagonal dots "),
  (pat "\\\\hbar", rep " h-bar "),
  (pat "\\\\ell", rep " script l "),
  (pat "\\\\langle", rep " left angle bracket "),
  (pat "\\\\rangle", rep " right angle bracket "),
  (pat "\\\\lfloor", rep " floor of "),
  (pat "\\\\rfloor", rep ""),
  (pat "\\\\lceil", rep " ceiling of "),
  (pat "\\\\rceil", rep ""),
  (pat "\\\\left\\(", rep " "),
  (pat "\\\\right\\)", rep " "),
  (pat "\\\\left\\[", rep " open bracket "),
  (pat "\\\\right\\]", rep " close bracket "),
  (pat "\\\\left\\\x7b", rep " open brace "),
  (pat "\\\\right\\\x7d", rep " close brace "),
  (pat "\\|\\|([^|]+)\\|\\|", rep "the norm of \\g<1>"),
  (pat "\\|([^|]+)\\|", rep "the absolute value of \\g<1>"),
  (pat "\\\\rightarrow", rep " implies "),
  (pat "\\\\leftarrow", rep " is implied by "),
  (pat "\\\\leftrightarrow", rep " if and only if "),
  (pat "\\\\Rightarrow", rep " implies "),
  (pat "\\\\Leftarrow", rep " is implied by "),
  (pat "\\\\Leftrightarrow", rep " if and only if "),
  (pat "\\\\uparrow", rep " up arrow "),
  (pat "\\\\downarrow", rep " down arrow "),
  (pat "\\\\mapsto", rep " maps to ")
]

/-- The fold `for pattern, replacement in self.latex_to_speech.items():
spoken = re.sub(pattern, replacement, spoken)`. -/
def applyLatexTable (s : Str) : Str :=
  latex_to_speech.foldl (fun acc r => reSub r.1 r.2 acc) s

/-- The second, structural pass `_handle_complex_latex_structures`: the
ordered `re.sub` chain of the source (the first call's lambda replacement
is the template "the fraction \g<1> over \g<2>"), then whitespace
normalisation, then the pause-insertion subs guarded by the > 10 word
check (`len(latex.split()) > 10`). -/
def handle_complex_latex_structures (latex0 : Str) : Str :=
  let l := reSub (pat "\\\\frac\\\x7b([^\x7b\x7d]+(?:\\\x7b[^\x7b\x7d]*\\\x7d[^\x7b\x7d]*)*)\\\x7d\\\x7b([^\x7b\x7d]+(?:\\\x7b[^\x7b\x7d]*\\\x7d[^\x7b\x7d]*)*)\\\x7d")
    (rep "the fraction \\g<1> over \\g<2>") latex0
  let l := reSub (pat "\\\\begin\\\x7bpmatrix\\\x7d([^\\\\]+)\\\\end\\\x7bpmatrix\\\x7d") (rep "the matrix \\g<1>") l
  let l := reSub (pat "\\\\begin\\\x7bbmatrix\\\x7d([^\\\\]+)\\\\end\\\x7bbmatrix\\\x7d") (rep "the matrix \\g<1>") l
  let l := reSub (pat "\\\\begin\\\x7bvmatrix\\\x7d([^\\\\]+)\\\\end\\\x7bvmatrix\\\x7d") (rep "the determinant of \\g<1>") l
  let l := reSub (pat "\\\\begin\\\x7bequation\\\x7d([^\\\\]+)\\\\end\\\x7bequation\\\x7d") (rep "the equation \\g<1>") l
  let l := reSub (pat "\\\\begin\\\x7balign\\\x7d([^\\\\]+)\\\\end\\\x7balign\\\x7d") (rep "the aligned equations \\g<1>") l
  let l := reSub (pat "\\\\begin\\\x7bcases\\\x7d([^\\\\]+)\\\\end\\\x7bcases\\\x7d") (rep "the piecewise function \\g<1>") l
  let l := reSub (pat "\\\\binom\\\x7b([^\x7d]+)\\\x7d\\\x7b([^\x7d]+)\\\x7d") (rep "\\g<1> choose \\g<2>") l
  let l := reSub (pat "([a-zA-Z])\\^\\\x7b([^\x7d]+)\\\x7d_\\\x7b([^\x7d]+)\\\x7d") (rep "\\g<1> to the power of \\g<2> subscript \\g<3>") l
  let l := reSub (pat "([a-zA-Z])_\\\x7b([^\x7d]+)\\\x7d\\^\\\x7b([^\x7d]+)\\\x7d") (rep "\\g<1> subscript \\g<2> to the power of \\g<3>") l
  let l := reSub (pat "\\^\\\x7b([^\x7d]+)\\\x7d") (rep " to the power of \\g<1>") l
  let l := reSub (pat "_\\\x7b([^\x7d]+)\\\x7d") (rep " subscript \\g<1>") l
  let l := reSub (pat "\\^(\\w+)") (rep " to the power of \\g<1>") l
  let l := reSub (pat "_(\\w+)") (rep " subscript \\g<1>") l
  let l := reSub (pat "\\\\operatorname\\\x7b([^\x7d]+)\\\x7d") (rep "\\g<1>") l
  let l := reSub (pat "\\\\text\\\x7b([^\x7d]+)\\\x7d") (rep "\\g<1>") l
  let l := reSub (pat "\\\\mathrm\\\x7b([^\x7d]+)\\\x7d") (rep "\\g<1>") l
  let l := reSub (pat "\\\\left\\|([^\\\\]+)\\\\right\\|") (rep "the norm of \\g<1>") l
  let l := reSub (pat "\\|([^|]+)\\|") (rep "the absolute value of \\g<1>") l
  let l := reSub (pat "\\\\lfloor([^\\\\]+)\\\\rfloor") (rep "the floor of \\g<1>") l
  let l := reSub (pat "\\\\lceil([^\\\\]+)\\\\rceil") (rep "the ceiling of \\g<1>") l
  let l := reSub (pat "\\\\mathbb\\\x7b([^\x7d]+)\\\x7d") (rep "the \\g<1> numbers") l
  let l := reSub (pat "\\\\mathcal\\\x7b([^\x7d]+)\\\x7d") (rep "script \\g<1>") l
  let l := reSub (pat "\\\\\\\\") (rep " and ") l
  let l := reSub (pat "\\\\quad") (rep " ") l
  let l := reSub (pat "\\\\qquad") (rep " ") l
  let l := reSub (pat "\\\\,") (rep " ") l
  let l := reSub (pat "\\\\;") (rep " ") l
  let l := reSub (pat "\\\\:") (rep " ") l
  let l := reSub (pat "\\\\!") (rep "") l
  let l := pyStrip (reSub (pat "\\s+") (rep " ") l)
  if 10 < (pySplitWs l).length then
    let l := reSub (pat "(equals?|is|are)\\s+") (rep "\\g<1> [PAUSE] ") l
    let l := reSub (pat "(therefore|thus|hence)\\s+") (rep "\\g<1> [PAUSE] ") l
    reSub (pat "(where|such that|given that)\\s+") (rep "\\g<1> [PAUSE] ") l
  else l

/-- `_fallback_latex_to_speech`: rule table, structural pass, whitespace
cleanup.  This is the in-process math transducer (the pandoc-based path
delegates to an external binary and falls back to this function). -/
def fallback_latex_to_speech (latex : Str) : Str :=
  let spoken := applyLatexTable latex
  let spoken := handle_complex_latex_structures spoken
  pyStrip (reSub (pat "\\s+") (rep " ") spoken)

/-! Auto math wrapper (`_auto_wrap_mathematical_expressions`,
`_wrap_math_in_text`). -/

/-- The compiled `latex_pattern` of `_auto_wrap_mathematical_expressions`
(compiled with `re.DOTALL`). -/
def latexSpanRE : RE := (pat "(\\$\\$.*?\\$\\$|\\$.*?\\$)").dotall

/-- `_wrap_math_in_text`: a literal text segment containing a dollar sign
is returned unmodified; otherwise the six wrapping rules run in order. -/
def wrap_math_in_text (text : Str) : Str :=
  if text.contains '$' then text
  else
    let t := reSub (pat "\\b([A-Za-z])\\(([^)]+)\\)") (rep "$\\g<1>(\\g<2>)$") text
    let t := reSub (pat "\\bE\\[([^\\]]+)\\]") (rep "$E[\\g<1>]$") t
    let t := reSub (pat "\\bVar\\(([^)]+)\\)") (rep "$\\\\text\x7bVar\x7d(\\g<1>)$") t
    let t := reSub (pat "\\bSD\\(([^)]+)\\)") (rep "$\\\\text\x7bSD\x7d(\\g<1>)$") t
    let t := reSub (pat "([A-Z])\\s*∩\\s*([A-Z])") (rep "$\\g<1> \\\\cap \\g<2>$") t
    reSub (pat "([A-Z])\\s*∪\\s*([A-Z])") (rep "$\\g<1> \\\\cup \\g<2>$") t

/-- The `latex_pattern.finditer` loop of
`_auto_wrap_mathematical_expressions`: split the content into literal
(`false`) and math-delimited (`true`) parts, skipping empty literal
parts, exactly as the source builds its `parts` list. -/
def splitLatexAux : Nat → Option Char → Str → Str → List (Bool × Str)
  | 0, _, pending, s => if (pending ++ s).isEmpty then [] else [(false, pending ++ s)]
  | fuel + 1, prev, pending, s =>
    match matchHere latexSpanRE prev s with
    | some (_, rest) =>
      let m := s.take (s.length - rest.length)
      if m.isEmpty then
        match s with
        | [] => if pending.isEmpty then [] else [(false, pending)]
        | c :: cs => splitLatexAux fuel (some c) (pending ++ [c]) cs
      else
        (if pending.isEmpty then [] else [(false, pending)]) ++
          (true, m) :: splitLatexAux fuel m.getLast? [] rest
    | none =>
      match s with
      | [] => if pending.isEmpty then [] else [(false, pending)]
      | c :: cs => splitLatexAux fuel (some c) (pending ++ [c]) cs

def splitLatexParts (content : Str) : List (Bool × Str) :=
  splitLatexAux (content.length + 2) none [] content

/-- The `parts` list of `_auto_wrap_mathematical_expressions`, including
the `if not parts: parts = [('text', content)]` fallback (reachable only
for empty content). -/
def autoWrapParts (content : Str) : List (Bool × Str) :=
  let ps := splitLatexParts content
  if ps.isEmpty then [(false, content)] else ps

/-- `_auto_wrap_mathematical_expressions`: math-delimited parts are copied
through unchanged, literal parts go through `_wrap_math_in_text`. -/
def auto_wrap_mathematical_expressions (content : Str) : Str :=
  ((autoWrapParts content).map (fun p => if p.1 then p.2 else wrap_math_in_text p.2)).flatten

/-! Citation naturalization (`_process_citations`, `_year_to_speech`,
`_number_to_words`). -/

/-- The `Citation` dataclass of `markdown_processor.py`. -/
structure Citation where
  original : Str
  author : Str
  year : Str
  line_number : Nat
  context : Str
deriving DecidableEq, Repr

/-- `_number_to_words` (simplified for years, exactly as in the source:
tens and ones are joined with a space). -/
def number_to_words (num : Nat) : Str :=
  let ones := [str "", str "one", str "two", str "three", str "four", str "five",
    str "six", str "seven", str "eight", str "nine"]
  let teens := [str "ten", str "eleven", str "twelve", str "thirteen", str "fourteen",
    str "fifteen", str "sixteen", str "seventeen", str "eighteen", str "nineteen"]
  let tens := [str "", str "", str "twenty", str "thirty", str "forty", str "fifty",
    str "sixty", str "seventy", str "eighty", str "ninety"]
  if num = 0 then str "zero"
  else if num < 10 then ones.getD num []
  else if num < 20 then teens.getD (num - 10) []
  else if num < 100 then
    tens.getD (num / 10) [] ++ (if num % 10 = 0 then [] else str " " ++ ones.getD (num % 10) [])
  else str (Nat.repr num)

/-- Python `int(year)` on the year string: optional sign after optional
whitespace is not used by the callers; the source's years are plain digit
strings, so parse those and fail otherwise (the `ValueError` branch). -/
def parseYear (s : Str) : Option Int :=
  let t := pyStrip s
  let (sign, digits) : Int × Str := match t with
    | '-' :: rest => (-1, rest)
    | '+' :: rest => (1, rest)
    | _ => (1, t)
  if digits.isEmpty || !(digits.all (·.isDigit)) then none
  else some (sign * (digitsToNat digits : Int))

/-- `_year_to_speech`. -/
def year_to_speech (year : Str) : Str :=
  match parseYear year with
  | none => year
  | some y =>
    if 1000 ≤ y ∧ y ≤ 2099 then
      if y < 2000 then
        let century := (y / 100).toNat
        let remainder := (y % 100).toNat
        if remainder = 0 then number_to_words century ++ str " hundred"
        else if remainder < 10 then
          number_to_words century ++ str " oh " ++ number_to_words remainder
        else number_to_words century ++ str " " ++ number_to_words remainder
      else
        if y % 100 ≠ 0 then str "twenty " ++ number_to_words (y % 100).toNat
        else str "twenty hundred"
    else year

/-- `_process_citations`: each citation is replaced throughout the content;
a comma in the original token selects the "Author, year" phrasing. -/
def process_citations (content : Str) (citations : List Citation) : Str :=
  citations.foldl (fun acc cit =>
    let spoken :=
      if cit.original.contains ',' then
        cit.author ++ str ", " ++ year_to_speech cit.year
      else
        cit.author ++ str " " ++ year_to_speech cit.year
    pyReplace acc cit.original spoken) content

/-! The annotation engine: `TextEnhancer.enhance_document` and its inner
`_process_chapter_recursive`, over the `Chapter` tree of
`markdown_processor.py`. -/

/-- The `Chapter` dataclass (`level`, `title`, `content`, `subsections`;
the line-number bookkeeping fields are irrelevant to the traversal and
omitted). -/
inductive Chapter where
  | mk (level : Nat) (title : Str) (content : Str) (subsections : List Chapter)

def Chapter.level : Chapter → Nat
  | .mk l _ _ _ => l

def Chapter.title : Chapter → Str
  | .mk _ t _ _ => t

def Chapter.content : Chapter → Str
  | .mk _ _ c _ => c

def Chapter.subsections : Chapter → List Chapter
  | .mk _ _ _ s => s

/-- `_enhance_chapter_title`: pronunciation substitution only.
The pronunciation dictionary is configuration data, passed explicitly. -/
def enhance_chapter_title (pron : List (Str × Str)) (title : Str) : Str :=
  pron.foldl (fun acc tp => pyReplace acc tp.1 tp.2) title

/-- The voice key chosen from the heading level in
`_process_chapter_recursive`. -/
def voice_key_of_level (level : Nat) : Str :=
  if level = 1 then str "main_title_voice"
  else if level = 2 then str "chapter_voice"
  else if level = 3 then str "section_voice"
  else str "subsection_voice"

/-- The mutable accumulators of `enhance_document` (the `nonlocal` state
of `_process_chapter_recursive`).  Voice assignments keep the insertion
order of the Python dict; its `"start:end"` string keys are modelled as
the pair of offsets. -/
structure EState where
  content : Str
  voice_assignments : List ((Nat × Nat) × Str)
  pause_markers : List (Nat × ℚ)
  chapter_breaks : List Nat
  chapter_titles : List Str
  current_position : Nat

/-- The per-node body of `_process_chapter_recursive`, step for step in
source order (everything before the recursion into subsections).  The
chapter-content enhancement `_enhance_chapter_content` may shell out to
pandoc and read configuration, so it enters as the function parameter
`enh`; every theorem below holds for an arbitrary `enh`. -/
def process_chapter_step (pron : List (Str × Str)) (enh : Str → Str)
    (level : Nat) (title content : Str) (is_first : Bool) (st0 : EState) : EState :=
    let st := { st0 with chapter_titles := st0.chapter_titles ++ [title] }
    let st := { st with chapter_breaks := st.chapter_breaks ++ [st.current_position] }
    let st := if is_first then st
      else { st with pause_markers := st.pause_markers ++ [(st.current_position, (1.5 : ℚ))] }
    let chapter_title := enhance_chapter_title pron title
    let st := { st with content := st.content ++ chapter_title }
    let title_start := st.current_position
    let title_end := st.current_position + chapter_title.length
    let st := { st with
      voice_assignments :=
        st.voice_assignments ++ [((title_start, title_end), voice_key_of_level level)],
      current_position := title_end }
    let separator := str "\n\n"
    let st := { st with
      content := st.content ++ separator,
      current_position := st.current_position + separator.length }
    let st := { st with pause_markers := st.pause_markers ++ [(st.current_position, (2.5 : ℚ))] }
    if (pyStrip content).isEmpty then st
    else
      let enhanced_chapter_content := enh content
      { st with
        content := st.content ++ enhanced_chapter_content,
        current_position := st.current_position + enhanced_chapter_content.length }

mutual

/-- `_process_chapter_recursive`: the node step above, then the
`for subsection in chapter.subsections` recursion. -/
def process_chapter_recursive (pron : List (Str × Str)) (enh : Str → Str) :
    Chapter → Bool → EState → EState
  | .mk level title content subsections, is_first, st =>
    process_subsections pron enh subsections
      (process_chapter_step pron enh level title content is_first st)

/-- The subsection loop (every subsection is a non-first node). -/
def process_subsections (pron : List (Str × Str)) (enh : Str → Str) :
    List Chapter → EState → EState
  | [], st => st
  | c :: cs, st => process_subsections pron enh cs (process_chapter_recursive pron enh c false st)

end

/-- The `EnhancedText` dataclass. -/
structure EnhancedText where
  content : Str
  voice_assignments : List ((Nat × Nat) × Str)
  pause_markers : List (Nat × ℚ)
  pronunciation_guides : List (Str × Str)
  chapter_breaks : List Nat
  chapter_titles : List Str

/-- `enhance_document`: process each top-level chapter (only the one at
index 0 is first), join the buffer, optionally apply the external AI
rewriting collaborator (`_apply_ai_enhancement`, modelled as the function
`ai`, applied when the processing mode enables it). -/
def enhance_document (pron : List (Str × Str)) (enh : Str → Str)
    (ai : Str → Str) (aiEnabled : Bool) (chapters : List Chapter) : EnhancedText :=
  let st0 : EState := ⟨[], [], [], [], [], 0⟩
  let st := match chapters with
    | [] => st0
    | c :: cs => process_subsections pron enh cs (process_chapter_recursive pron enh c true st0)
  let full_content := st.content
  let full_content := if aiEnabled then ai full_content else full_content
  ⟨full_content, st.voice_assignments, st.pause_markers, pron,
    st.chapter_breaks, st.chapter_titles⟩

mutual

/-- Heading levels in visit (pre-order) order. -/
def visit_levels : Chapter → List Nat
  | .mk level _ _ subs => level :: visit_levels_list subs

/-- Heading levels of a forest in visit order. -/
def visit_levels_list : List Chapter → List Nat
  | [] => []
  | c :: cs => visit_levels c ++ visit_levels_list cs

end

/-! The chapter segmenter: `AudiobookGenerator._split_into_chapters`. -/

/-- One chapter record produced by `_split_into_chapters`.  Re-based voice
offsets are integers: Python subtracts plain ints, so a span end smaller
than the chapter start would go negative rather than truncate. -/
structure SplitChapter where
  title : Str
  content : Str
  voice_assignments : List ((Int × Int) × Str)

/-- The legacy title fallback of `_split_into_chapters` (used only when
`i` is out of range of `chapter_titles`). -/
def legacy_chapter_title (chapter_content : Str) (i : Nat) : Str :=
  let lines := pySplitChar chapter_content '\n'
  let raw_title := match lines with
    | [] => str "Chapter " ++ str (Nat.repr (i + 1))
    | l :: _ => l
  let title := pyStrip (pyReplace raw_title (str "Chapter: ") (str ""))
  let title := reSub (pat "^#+\\s*") (rep "") title
  if title.isEmpty || (pyStrip title).length < 3 then str "Chapter " ++ str (Nat.repr (i + 1))
  else title

/-- `_split_into_chapters`: chapter `i` covers
`[breaks[i], breaks[i+1])` (the last chapter runs to the buffer end), its
text is the stripped slice, and a voice span is kept for chapter `i`
exactly when its start offset lies in that interval, both endpoints
shifted down by `breaks[i]`. -/
def split_into_chapters (enhanced_text : EnhancedText) : List SplitChapter :=
  if enhanced_text.chapter_breaks.isEmpty then
    [⟨str "Chapter 1", enhanced_text.content,
      enhanced_text.voice_assignments.map (fun v => (((v.1.1 : Int), (v.1.2 : Int)), v.2))⟩]
  else
    enhanced_text.chapter_breaks.enum.map (fun ib =>
      let i := ib.1
      let start_pos := ib.2
      let end_pos := enhanced_text.chapter_breaks.getD (i + 1) enhanced_text.content.length
      let chapter_content := pyStrip (pySlice enhanced_text.content start_pos end_pos)
      let title := match enhanced_text.chapter_titles.get? i with
        | some t => t
        | none => legacy_chapter_title chapter_content i
      let chapter_voice := enhanced_text.voice_assignments.filterMap (fun v =>
        if start_pos ≤ v.1.1 ∧ v.1.1 < end_pos then
          some (((v.1.1 : Int) - (start_pos : Int), (v.1.2 : Int) - (start_pos : Int)), v.2)
        else none)
      ⟨title, chapter_content, chapter_voice⟩)

/-! The validation check: `TextEnhancer.validate_enhancement`. -/

/-- `validate_enhancement`: four checks, a list of human-readable issues,
and a boolean that is `len(issues) == 0`. -/
def validate_enhancement (enhanced_text : EnhancedText) : Bool × List Str :=
  let content := enhanced_text.content
  let issues : List Str :=
    (if reSearch (pat "\\$[^$]+\\$") content then
      [str "Unprocessed inline math expressions found"] else []) ++
    (if reSearch (pat "\\$\\$[^$]+\\$\\$") content then
      [str "Unprocessed block math expressions found"] else []) ++
    (let sentences := reSplit (pat "[.!?]+") content
     let long_sentences := sentences.filter (fun s => 300 < (pyStrip s).length)
     if !long_sentences.isEmpty then
       [str "Found " ++ str (Nat.repr long_sentences.length) ++
         str " very long sentences that may be hard to narrate"]
     else []) ++
    (if pyCount content (str "[EMPHASIS]") ≠ pyCount content (str "[/EMPHASIS]") then
      [str "Unbalanced emphasis markers"] else []) ++
    (if (pyStrip content).length < 50 then [str "Enhanced content is very short"] else [])
  (issues.length == 0, issues)

/-! Auxiliary predicates and concrete fixtures used by the theorems. -/

mutual

/-- Every node of the tree has a non-empty pronunciation-substituted
title. -/
def titles_nonempty (pron : List (Str × Str)) : Chapter → Bool
  | .mk _ title _ subs =>
    !(enhance_chapter_title pron title).isEmpty && titles_nonempty_list pron subs

/-- Forest version of `titles_nonempty`. -/
def titles_nonempty_list (pron : List (Str × Str)) : List Chapter → Bool
  | [] => true
  | c :: cs => titles_nonempty pron c && titles_nonempty_list pron cs

end

/-- State invariant maintained by the traversal: the cursor equals the
buffer length, chapter breaks are strictly increasing, every break is at
least two positions before the cursor (title separator room), breaks and
titles stay paired, and every voice span is well-formed up to the cursor. -/
structure EInv (st : EState) : Prop where
  pos_eq : st.current_position = st.content.length
  breaks_sorted : st.chapter_breaks.Pairwise (· < ·)
  breaks_lt : ∀ b ∈ st.chapter_breaks, b + 2 ≤ st.current_position
  len_eq : st.chapter_breaks.length = st.chapter_titles.length
  voice_le : ∀ v ∈ st.voice_assignments, v.1.1 ≤ v.1.2 ∧ v.1.2 ≤ st.current_position

/-- The initial accumulator state of `enhance_document`. -/
def initState : EState := ⟨[], [], [], [], [], 0⟩

/-- A document whose single node has an empty title (`C1`'s edge case). -/
def emptyTitleDoc : List Chapter := [Chapter.mk 1 [] [] []]

/-- A one-node document with a non-empty title. -/
def oneNodeDoc : List Chapter := [Chapter.mk 1 (str "T") (str "") []]

/-- A tree with nodes at depths `[1, 2, 2, 3]` in visit order. -/
def depthsDoc : List Chapter :=
  [Chapter.mk 1 (str "T") (str "")
    [Chapter.mk 2 (str "A") (str "") [],
     Chapter.mk 2 (str "B") (str "") [Chapter.mk 3 (str "C") (str "") []]]]

/-- An `EnhancedText` with breaks `[0, 50, 120]`, a straddling voice span
`(40, 60)` and an interior one `(60, 80)` (the segmenter examples). -/
def segET : EnhancedText :=
  ⟨List.replicate 130 'a', [((40, 60), str "v"), ((60, 80), str "w")], [], [],
    [0, 50, 120], [str "t1", str "t2", str "t3"]⟩

/-- An `EnhancedText` whose second chapter slice has leading whitespace,
so stripping shortens it while span offsets stay slice-relative. -/
def stripET : EnhancedText :=
  ⟨str "abc   XY", [((6, 8), str "v")], [], [], [0, 3], [str "t1", str "t2"]⟩

/-- Content with one math-delimited span and a literal span holding a
stray dollar sign. -/
def strayContent : Str := str "see $x$ and b$"

/-- A too-short `EnhancedText` for the validation check. -/
def shortET : EnhancedText := ⟨str "short", [], [], [], [], []⟩

/-- The citation token of the `C4` example. -/
def smith_citation : Citation := ⟨str "(Smith, 1964)", str "Smith", str "1964", 1, str ""⟩

/-- The "ket" bra-ket rule of the table (entry 30). -/
def ket_rule : RE × List RTok := (pat "\\|([^\\rangle|]+)\\\\rangle", rep "ket \\g<1>")

/-- The generic absolute-value rule of the table (entry 148). -/
def abs_value_rule : RE × List RTok :=
  (pat "\\|([^|]+)\\|", rep "the absolute value of \\g<1>")

/-- The probability-notation rule of the table (entry 0, the very first). -/
def probability_rule : RE × List RTok :=
  (pat "\\bP\\(([^)]+)\\)", rep "probability of \\g<1>")

/-! Helper lemmas: closed forms of the per-node step. -/

theorem step_titles (pron : List (Str × Str)) (enh : Str → Str) (level : Nat)
    (title content : Str) (first : Bool) (st : EState) :
    (process_chapter_step pron enh level title content first st).chapter_titles
      = st.chapter_titles ++ [title] := by
  unfold process_chapter_step
  cases first <;> by_cases hc : (pyStrip content).isEmpty = true <;> simp [hc]

theorem step_breaks (pron : List (Str × Str)) (enh : Str → Str) (level : Nat)
    (title content : Str) (first : Bool) (st : EState) :
    (process_chapter_step pron enh level title content first st).chapter_breaks
      = st.chapter_breaks ++ [st.current_position] := by
  unfold process_chapter_step
  cases first <;> by_cases hc : (pyStrip content).isEmpty = true <;> simp [hc]

theorem step_voice (pron : List (Str × Str)) (enh : Str → Str) (level : Nat)
    (title content : Str) (first : Bool) (st : EState) :
    (process_chapter_step pron enh level title content first st).voice_assignments
      = st.voice_assignments ++
        [((st.current_position,
           st.current_position + (enhance_chapter_title pron title).length),
          voice_key_of_level level)] := by
  unfold process_chapter_step
  cases first <;> by_cases hc : (pyStrip content).isEmpty = true <;> simp [hc]

theorem step_pos (pron : List (Str × Str)) (enh : Str → Str) (level : Nat)
    (title content : Str) (first : Bool) (st : EState) :
    (process_chapter_step pron enh level title content first st).current_position
      = st.current_position + (enhance_chapter_title pron title).length + 2 +
        (if (pyStrip content).isEmpty then 0 else (enh content).length) := by
  unfold process_chapter_step
  cases first <;> by_cases hc : (pyStrip content).isEmpty = true <;> simp [hc, str]

theorem step_content (pron : List (Str × Str)) (enh : Str → Str) (level : Nat)
    (title content : Str) (first : Bool) (st : EState) :
    (process_chapter_step pron enh level title content first st).content
      = st.content ++ enhance_chapter_title pron title ++ str "\n\n" ++
        (if (pyStrip content).isEmpty then [] else enh content) := by
  unfold process_chapter_step
  cases first <;> by_cases hc : (pyStrip content).isEmpty = true <;> simp [hc]

theorem step_pos_ge (pron : List (Str × Str)) (enh : Str → Str) (level : Nat)
    (title content : Str) (first : Bool) (st : EState) :
    st.current_position + 2 ≤
      (process_chapter_step pron enh level title content first st).current_position := by
  rw [step_pos]; split <;> omega

theorem step_inv (pron : List (Str × Str)) (enh : Str → Str) (level : Nat)
    (title content : Str) (first : Bool) (st : EState) (h : EInv st) :
    EInv (process_chapter_step pron enh level title content first st) := by
  obtain ⟨hp, hs, hl, hlen, hv⟩ := h
  refine ⟨?_, ?_, ?_, ?_, ?_⟩
  · rw [step_pos, step_content, hp]
    have h2 : (str "\n\n").length = 2 := rfl
    simp only [List.length_append, h2]
    split <;> simp only [List.length_nil]
  · rw [step_breaks]
    refine List.pairwise_append.2 ⟨hs, List.pairwise_singleton _ _, ?_⟩
    intro a ha b hb
    rw [List.mem_singleton] at hb
    subst hb
    have := hl a ha
    omega
  · intro b hb
    rw [step_breaks] at hb
    have hge := step_pos_ge pron enh level title content first st
    rcases List.mem_append.1 hb with hb | hb
    · have := hl b hb; omega
    · rw [List.mem_singleton] at hb; omega
  · rw [step_breaks, step_titles]; simp [hlen]
  · intro v hv'
    rw [step_voice] at hv'
    have hge := step_pos_ge pron enh level title content first st
    rw [step_pos] at hge ⊢
    rcases List.mem_append.1 hv' with hv' | hv'
    · have := hv v hv'; exact ⟨this.1, by omega⟩
    · rw [List.mem_singleton] at hv'
      subst hv'
      dsimp only
      exact ⟨Nat.le_add_right _ _, by split <;> omega⟩

mutual

theorem pcr_inv (pron : List (Str × Str)) (enh : Str → Str) (ch : Chapter)
    (first : Bool) (st : EState) (h : EInv st) :
    EInv (process_chapter_recursive pron enh ch first st) := by
  match ch with
  | .mk level title content subsections =>
    rw [process_chapter_recursive]
    exact ps_inv pron enh subsections _
      (step_inv pron enh level title content first st h)

theorem ps_inv (pron : List (Str × Str)) (enh : Str → Str) (cs : List Chapter)
    (st : EState) (h : EInv st) :
    EInv (process_subsections pron enh cs st) := by
  match cs with
  | [] => rw [process_subsections]; exact h
  | c :: cs' =>
    rw [process_subsections]
    exact ps_inv pron enh cs' _ (pcr_inv pron enh c false st h)

end

mutual

theorem pcr_pos_le (pron : List (Str × Str)) (enh : Str → Str) (ch : Chapter)
    (first : Bool) (st : EState) :
    st.current_position ≤ (process_chapter_recursive pron enh ch first st).current_position := by
  match ch with
  | .mk level title content subsections =>
    rw [process_chapter_recursive]
    have h1 := step_pos_ge pron enh level title content first st
    have h2 := ps_pos_le pron enh subsections
      (process_chapter_step pron enh level title content first st)
    omega

theorem ps_pos_le (pron : List (Str × Str)) (enh : Str → Str) (cs : List Chapter)
    (st : EState) :
    st.current_position ≤ (process_subsections pron enh cs st).current_position := by
  match cs with
  | [] => rw [process_subsections]
  | c :: cs' =>
    rw [process_subsections]
    have h1 := pcr_pos_le pron enh c false st
    have h2 := ps_pos_le pron enh cs' (process_chapter_recursive pron enh c false st)
    omega

end

/-- Strict voice-span well-formedness, used for the amended `C1`. -/
def VoiceStrict (st : EState) : Prop :=
  ∀ v ∈ st.voice_assignments, v.1.1 < v.1.2 ∧ v.1.2 ≤ st.current_position

theorem step_voice_strict (pron : List (Str × Str)) (enh : Str → Str) (level : Nat)
    (title content : Str) (first : Bool) (st : EState)
    (hT : (enhance_chapter_title pron title).isEmpty = false)
    (h : VoiceStrict st) :
    VoiceStrict (process_chapter_step pron enh level title content first st) := by
  intro v hv'
  rw [step_voice] at hv'
  have hge := step_pos_ge pron enh level title content first st
  rw [step_pos] at hge ⊢
  rcases List.mem_append.1 hv' with hv' | hv'
  · have := h v hv'; exact ⟨this.1, by omega⟩
  · rw [List.mem_singleton] at hv'
    subst hv'
    dsimp only
    have hlen : 0 < (enhance_chapter_title pron title).length := by
      cases hl : enhance_chapter_title pron title with
      | nil => rw [hl] at hT; exact absurd hT (by simp)
      | cons a as => simp [hl]
    exact ⟨by omega, by split <;> omega⟩

mutual

theorem pcr_voice_strict (pron : List (Str × Str)) (enh : Str → Str) (ch : Chapter)
    (first : Bool) (st : EState) (hT : titles_nonempty pron ch = true)
    (h : VoiceStrict st) :
    VoiceStrict (process_chapter_recursive pron enh ch first st) := by
  match ch with
  | .mk level title content subsections =>
    rw [process_chapter_recursive]
    rw [titles_nonempty, Bool.and_eq_true] at hT
    exact ps_voice_strict pron enh subsections _ hT.2
      (step_voice_strict pron enh level title content first st (by simpa using hT.1) h)

theorem ps_voice_strict (pron : List (Str × Str)) (enh : Str → Str) (cs : List Chapter)
    (st : EState) (hT : titles_nonempty_list pron cs = true) (h : VoiceStrict st) :
    VoiceStrict (process_subsections pron enh cs st) := by
  match cs with
  | [] => rw [process_subsections]; exact h
  | c :: cs' =>
    rw [process_subsections]
    rw [titles_nonempty_list, Bool.and_eq_true] at hT
    exact ps_voice_strict pron enh cs' _ hT.2
      (pcr_voice_strict pron enh c false st hT.1 h)

end

/-- The voice role appended by a node step. -/
theorem step_roles (pron : List (Str × Str)) (enh : Str → Str) (level : Nat)
    (title content : Str) (first : Bool) (st : EState) :
    (process_chapter_step pron enh level title content first st).voice_assignments.map
        Prod.snd
      = st.voice_assignments.map Prod.snd ++ [voice_key_of_level level] := by
  rw [step_voice]; simp

mutual

theorem pcr_roles (pron : List (Str × Str)) (enh : Str → Str) (ch : Chapter)
    (first : Bool) (st : EState) :
    (process_chapter_recursive pron enh ch first st).voice_assignments.map Prod.snd
      = st.voice_assignments.map Prod.snd ++ (visit_levels ch).map voice_key_of_level := by
  match ch with
  | .mk level title content subsections =>
    rw [process_chapter_recursive, visit_levels]
    rw [ps_roles pron enh subsections _, step_roles]
    simp

theorem ps_roles (pron : List (Str × Str)) (enh : Str → Str) (cs : List Chapter)
    (st : EState) :
    (process_subsections pron enh cs st).voice_assignments.map Prod.snd
      = st.voice_assignments.map Prod.snd ++ (visit_levels_list cs).map voice_key_of_level := by
  match cs with
  | [] => rw [process_subsections, visit_levels_list]; simp
  | c :: cs' =>
    rw [process_subsections, visit_levels_list]
    rw [ps_roles pron enh cs' _, pcr_roles]
    simp

end

theorem initState_inv : EInv initState :=
  ⟨rfl, List.Pairwise.nil, by intro b hb; simp [initState] at hb, rfl,
    by intro v hv; simp [initState] at hv⟩

/-- C2: for every document (any pronunciation dictionary, any content
enhancer, any AI rewriter, enabled or not), the chapter-break offsets of
`enhance_document` are strictly increasing and the break list and the
title list have equal length. -/
theorem C2_chapter_breaks (pron : List (Str × Str)) (enh ai : Str → Str)
    (aiEnabled : Bool) (chapters : List Chapter) :
    (enhance_document pron enh ai aiEnabled chapters).chapter_breaks.Pairwise (· < ·) ∧
    (enhance_document pron enh ai aiEnabled chapters).chapter_breaks.length
      = (enhance_document pron enh ai aiEnabled chapters).chapter_titles.length := by
  cases chapters with
  | nil => exact ⟨List.Pairwise.nil, rfl⟩
  | cons c cs =>
    have h := ps_inv pron enh cs _ (pcr_inv pron enh c true initState initState_inv)
    exact ⟨h.breaks_sorted, h.len_eq⟩

/-- C7: the voice role of every visited node is determined solely by its
heading depth (1 ↦ main title, 2 ↦ chapter, 3 ↦ section, ≥ 4 ↦
subsection), in visit order; in particular a tree with depths
`[1, 2, 2, 3]` yields exactly those four roles. -/
theorem C7_voice_roles (pron : List (Str × Str)) (enh ai : Str → Str)
    (aiEnabled : Bool) (chapters : List Chapter) :
    (enhance_document pron enh ai aiEnabled chapters).voice_assignments.map Prod.snd
      = (visit_levels_list chapters).map voice_key_of_level ∧
    (enhance_document [] id id false depthsDoc).voice_assignments.map Prod.snd
      = [str "main_title_voice", str "chapter_voice", str "chapter_voice",
         str "section_voice"] := by
  constructor
  · cases chapters with
    | nil => rfl
    | cons c cs =>
      show (process_subsections pron enh cs
          (process_chapter_recursive pron enh c true initState)).voice_assignments.map
            Prod.snd = _
      rw [ps_roles, pcr_roles]
      simp [initState, visit_levels_list]
  · decide

/-- C1 fails as stated: a node with an empty (substituted) title records
the voice span `(0, 0)`, violating `s < e`; and with the AI rewriting
pass enabled, a rewriter that shortens the buffer leaves a span end
beyond `len(buffer)`. -/
theorem C1_counterexample :
    (((0, 0), str "main_title_voice") ∈
        (enhance_document [] id id false emptyTitleDoc).voice_assignments) ∧
    ¬ ((0 : Nat) < 0) ∧
    (∃ v ∈ (enhance_document [] id (fun _ => []) true oneNodeDoc).voice_assignments,
      ¬ v.1.2 ≤ (enhance_document [] id (fun _ => []) true oneNodeDoc).content.length) := by
  refine ⟨by decide, by decide, ⟨((0, 1), str "main_title_voice"), by decide, by decide⟩⟩

/-- C1 (amended): when every node's pronunciation-substituted title is
non-empty and the AI rewriting pass is disabled, every recorded voice
span `(s, e)` satisfies `s < e ≤ len(buffer)` (and `0 ≤ s` holds since
offsets are naturals). -/
theorem C1_voice_span_bounds (pron : List (Str × Str)) (enh ai : Str → Str)
    (chapters : List Chapter) (hT : titles_nonempty_list pron chapters = true) :
    ∀ v ∈ (enhance_document pron enh ai false chapters).voice_assignments,
      v.1.1 < v.1.2 ∧
      v.1.2 ≤ (enhance_document pron enh ai false chapters).content.length := by
  cases chapters with
  | nil => intro v hv; exact absurd hv (by simp [enhance_document])
  | cons c cs =>
    intro v hv
    rw [titles_nonempty_list, Bool.and_eq_true] at hT
    have hinv := ps_inv pron enh cs _ (pcr_inv pron enh c true initState initState_inv)
    have hstrict := ps_voice_strict pron enh cs _ hT.2
      (pcr_voice_strict pron enh c true initState hT.1
        (by intro v hv; simp [initState] at hv))
    have h1 := hstrict v hv
    exact ⟨h1.1, by rw [show (enhance_document pron enh ai false (c :: cs)).content
      = (process_subsections pron enh cs
          (process_chapter_recursive pron enh c true initState)).content from rfl,
      ← hinv.pos_eq]; exact h1.2⟩

/-- Witness for the amended C1 at a concrete one-node document. -/
theorem C1_witness :
    titles_nonempty_list [] oneNodeDoc = true ∧
    ((0 : Nat) < 1 ∧
      (1 : Nat) ≤ (enhance_document [] id id false oneNodeDoc).content.length) :=
  ⟨by decide,
    C1_voice_span_bounds [] id id oneNodeDoc (by decide)
      ((0, 1), str "main_title_voice") (by decide)⟩

/-- C3 fails as stated: with breaks `[0, 50, 120]` the straddling span
`(40, 60)` (start in chapter 0, end past the boundary 50) is not
dropped — it is kept in chapter 0, re-based, with its end beyond the
chapter; the interior span `(60, 80)` is re-based to `(10, 30)` in the
middle chapter as the claim's example says. -/
theorem C3_counterexample :
    (split_into_chapters segET).map SplitChapter.voice_assignments
      = [[((40, 60), str "v")], [((10, 30), str "w")], []] := by
  decide

/-- C3 (amended): every voice span whose start offset lies in
`[breaks[i], breaks[i+1])` is re-keyed to chapter `i` by subtracting
`breaks[i]` from both endpoints; selection is by start offset only, so a
span whose end crosses the next break is kept (re-based), not dropped. -/
theorem C3_span_rekey (et : EnhancedText) (i bi : Nat)
    (hb : et.chapter_breaks[i]? = some bi)
    (v : (Nat × Nat) × Str) (hv : v ∈ et.voice_assignments)
    (h1 : bi ≤ v.1.1)
    (h2 : v.1.1 < et.chapter_breaks.getD (i + 1) et.content.length) :
    ∃ ch, (split_into_chapters et)[i]? = some ch ∧
      (((v.1.1 : Int) - (bi : Int), (v.1.2 : Int) - (bi : Int)), v.2)
        ∈ ch.voice_assignments := by
  have hne : et.chapter_breaks.isEmpty = false := by
    cases hcb : et.chapter_breaks with
    | nil => rw [hcb] at hb; simp at hb
    | cons a as => simp [hcb]
  unfold split_into_chapters
  rw [if_neg (by simp [hne])]
  rw [List.getElem?_map, List.getElem?_enum, hb, Option.map_some']
  refine ⟨_, rfl, ?_⟩
  exact List.mem_filterMap.2 ⟨v, hv, by rw [if_pos ⟨h1, h2⟩]⟩

/-- Witness for the amended C3: with breaks `[0, 50, 120]`, the span
`(60, 80)` lands in the middle chapter re-based as `(10, 30)`. -/
theorem C3_witness :
    ∃ ch, (split_into_chapters segET)[1]? = some ch ∧
      (((10 : Int), (30 : Int)), str "w") ∈ ch.voice_assignments :=
  C3_span_rekey segET 1 50 (by decide) ((60, 80), str "w") (by decide)
    (by decide) (by decide)

/-- Helper: stripping never lengthens a string. -/
theorem pyStrip_length_le (s : Str) : (pyStrip s).length ≤ s.length := by
  unfold pyStrip
  simp only [List.length_reverse]
  exact le_trans (List.dropWhile_sublist _).length_le
    (by simpa using (List.dropWhile_sublist (l := s) isSpaceChar).length_le)

/-- Helper: a Python slice is at most `b - a` long. -/
theorem pySlice_length_le (s : Str) (a b : Nat) : (pySlice s a b).length ≤ b - a := by
  unfold pySlice
  simp only [List.length_drop, List.length_take]
  omega

/-- C10: the text emitted for chapter `i` is the whitespace-stripped
slice `buffer[breaks[i] : breaks[i+1]]` (last chapter to buffer end), so
its length can fall below `breaks[i+1] - breaks[i]`, while the re-based
voice spans of that chapter are computed from the unstripped offsets. -/
theorem C10_chapter_text (et : EnhancedText) (i bi : Nat)
    (hb : et.chapter_breaks[i]? = some bi) :
    ∃ ch, (split_into_chapters et)[i]? = some ch ∧
      ch.content =
        pyStrip (pySlice et.content bi (et.chapter_breaks.getD (i + 1) et.content.length)) ∧
      ch.content.length ≤ et.chapter_breaks.getD (i + 1) et.content.length - bi ∧
      ch.voice_assignments = et.voice_assignments.filterMap (fun v =>
        if bi ≤ v.1.1 ∧ v.1.1 < et.chapter_breaks.getD (i + 1) et.content.length then
          some (((v.1.1 : Int) - (bi : Int), (v.1.2 : Int) - (bi : Int)), v.2)
        else none) := by
  have hne : et.chapter_breaks.isEmpty = false := by
    cases hcb : et.chapter_breaks with
    | nil => rw [hcb] at hb; simp at hb
    | cons a as => simp [hcb]
  unfold split_into_chapters
  rw [if_neg (by simp [hne])]
  rw [List.getElem?_map, List.getElem?_enum, hb, Option.map_some']
  refine ⟨_, rfl, rfl, ?_, rfl⟩
  exact le_trans (pyStrip_length_le _) (pySlice_length_le _ _ _)

/-- Witness for C10: the second chapter of `stripET` covers `[3, 8)`, its
slice `"   XY"` strips to `"XY"` (length 2 < 5), and the span `(6, 8)` is
re-based to `(3, 5)` against the unstripped slice. -/
theorem C10_witness :
    (∃ ch, (split_into_chapters stripET)[1]? = some ch ∧
      ch.content = pyStrip (pySlice stripET.content 3
        (stripET.chapter_breaks.getD 2 stripET.content.length)) ∧
      ch.content.length ≤ stripET.chapter_breaks.getD 2 stripET.content.length - 3 ∧
      ch.voice_assignments = stripET.voice_assignments.filterMap (fun v =>
        if 3 ≤ v.1.1 ∧ v.1.1 < stripET.chapter_breaks.getD 2 stripET.content.length then
          some (((v.1.1 : Int) - (3 : Int), (v.1.2 : Int) - (3 : Int)), v.2)
        else none)) :=
  C10_chapter_text stripET 1 3 (by decide)

/-- Helper: the image of a list member under the mapped function is an
infix of the flattened image of the list. -/
theorem flatten_map_infix {α β : Type} (f : α → List β) (l : List α) (p : α)
    (hp : p ∈ l) : f p <:+: (l.map f).flatten := by
  obtain ⟨s, t, rfl⟩ := List.append_of_mem hp
  refine ⟨(s.map f).flatten, (t.map f).flatten, ?_⟩
  simp

/-- C8: every math-delimited part of the input reappears verbatim (as a
contiguous segment) in the auto-wrapper's output, and a literal part that
contains a stray dollar sign is passed through `_wrap_math_in_text`
completely unmodified (and hence also reappears verbatim). -/
theorem C8_wrapper_frame (content : Str) :
    (∀ p ∈ autoWrapParts content, p.1 = true →
      p.2 <:+: auto_wrap_mathematical_expressions content) ∧
    (∀ p ∈ autoWrapParts content, p.1 = false → '$' ∈ p.2 →
      wrap_math_in_text p.2 = p.2 ∧
      p.2 <:+: auto_wrap_mathematical_expressions content) := by
  have key : ∀ p ∈ autoWrapParts content,
      (if p.1 then p.2 else wrap_math_in_text p.2)
        <:+: auto_wrap_mathematical_expressions content := by
    intro p hp
    unfold auto_wrap_mathematical_expressions
    exact flatten_map_infix (fun p => if p.1 then p.2 else wrap_math_in_text p.2)
      (autoWrapParts content) p hp
  constructor
  · intro p hp h1
    have h := key p hp
    rwa [h1, if_pos rfl] at h
  · intro p hp h0 hd
    have hwrap : wrap_math_in_text p.2 = p.2 := by
      unfold wrap_math_in_text
      rw [if_pos (List.elem_iff.2 hd)]
    have h := key p hp
    rw [h0] at h
    simp only [Bool.false_eq_true, if_false] at h
    rw [hwrap] at h
    exact ⟨hwrap, h⟩

/-- Witness for C8 on content with a math span and a stray-dollar literal
span. -/
theorem C8_witness :
    ((true, str "$x$") ∈ autoWrapParts strayContent ∧
      str "$x$" <:+: auto_wrap_mathematical_expressions strayContent) ∧
    ((false, str " and b$") ∈ autoWrapParts strayContent ∧
      wrap_math_in_text (str " and b$") = str " and b$" ∧
      str " and b$" <:+: auto_wrap_mathematical_expressions strayContent) :=
  ⟨⟨by decide, (C8_wrapper_frame strayContent).1 (true, str "$x$") (by decide) rfl⟩,
   ⟨by decide,
     ((C8_wrapper_frame strayContent).2 (false, str " and b$") (by decide) rfl
       (by decide)).1,
     ((C8_wrapper_frame strayContent).2 (false, str " and b$") (by decide) rfl
       (by decide)).2⟩⟩

/-- C9: the validation check is a total function returning a boolean and
an issue list; the boolean is true exactly when the list is empty, and
every issue is one of the four human-readable messages (unconverted
inline math, unconverted block math, a long-sentence count, unbalanced
emphasis markers, too-short content). -/
theorem C9_validate (et : EnhancedText) :
    ((validate_enhancement et).1 = true ↔ (validate_enhancement et).2 = []) ∧
    ∀ m ∈ (validate_enhancement et).2,
      m = str "Unprocessed inline math expressions found" ∨
      m = str "Unprocessed block math expressions found" ∨
      (∃ n, m = str "Found " ++ str (Nat.repr n) ++
        str " very long sentences that may be hard to narrate") ∨
      m = str "Unbalanced emphasis markers" ∨
      m = str "Enhanced content is very short" := by
  constructor
  · show ((validate_enhancement et).2.length == 0) = true ↔ _
    rw [beq_iff_eq, List.length_eq_zero]
  · intro m hm
    simp only [validate_enhancement] at hm
    rcases List.mem_append.1 hm with hm | h5
    · rcases List.mem_append.1 hm with hm | h4
      · rcases List.mem_append.1 hm with hm | h3
        · rcases List.mem_append.1 hm with h1 | h2
          · left; revert h1; split <;> simp
          · right; left; revert h2; split <;> simp
        · right; right; left
          revert h3
          split
          · intro hmem
            rw [List.mem_singleton] at hmem
            exact ⟨_, hmem⟩
          · simp
      · right; right; right; left; revert h4; split <;> simp
    · right; right; right; right; revert h5; split <;> simp

/-- Witness for C9: a short buffer yields a `false` verdict with exactly
the too-short issue. -/
theorem C9_witness :
    (((validate_enhancement shortET).1 = true ↔ (validate_enhancement shortET).2 = []) ∧
      (str "Enhanced content is very short" = str "Unprocessed inline math expressions found" ∨
       str "Enhanced content is very short" = str "Unprocessed block math expressions found" ∨
       (∃ n, str "Enhanced content is very short" = str "Found " ++ str (Nat.repr n) ++
         str " very long sentences that may be hard to narrate") ∨
       str "Enhanced content is very short" = str "Unbalanced emphasis markers" ∨
       str "Enhanced content is very short" = str "Enhanced content is very short")) :=
  ⟨(C9_validate shortET).1,
   (C9_validate shortET).2 (str "Enhanced content is very short") (by decide)⟩

/-- C4 (the code diverges from its own docstring): the citation
`"(Smith, 1964)"` is naturalized to `"Smith, nineteen sixty four"` — the
tens and ones are joined with a space by `_number_to_words`, not with the
hyphen promised by `_year_to_speech`'s docstring and the claim. -/
theorem C4_citation_eval :
    process_citations (str "(Smith, 1964)") [smith_citation]
        = str "Smith, nineteen sixty four" ∧
    year_to_speech (str "1964") = str "nineteen sixty four" ∧
    str "Smith, nineteen sixty four" ≠ str "Smith, nineteen sixty-four" := by
  refine ⟨by decide, by decide, by decide⟩

/-- C5: the transducer turns `"|\psi\rangle"` into `"ket psi"` — which
contains `"ket"` followed by `"psi"` and no `"absolute value"` — and the
ket rule sits at table entry 30, before the generic absolute-value rule
at entry 148, so bra-ket notation is rewritten first on every input. -/
theorem C5_braket_precedence :
    fallback_latex_to_speech (str "|\\psi\\rangle") = str "ket psi" ∧
    (∃ a b c, fallback_latex_to_speech (str "|\\psi\\rangle")
        = a ++ str "ket" ++ b ++ str "psi" ++ c) ∧
    ¬ str "absolute value" <:+: fallback_latex_to_speech (str "|\\psi\\rangle") ∧
    latex_to_speech[30]? = some ket_rule ∧
    latex_to_speech[148]? = some abs_value_rule := by
  have h1 : fallback_latex_to_speech (str "|\\psi\\rangle") = str "ket psi" := by decide
  refine ⟨h1, ⟨[], str " ", [], by rw [h1]; decide⟩, ?_, by decide, by decide⟩
  intro hinf
  rw [h1] at hinf
  exact absurd hinf.length_le (by decide)

/-- C6: the bare-prose input `"P(A)"` is auto-wrapped to the
math-delimited `"$P(A)$"`, the transducer turns `"P(A)"` into
`"probability of A"`, the probability rule is the first entry of the rule
table (so it fires before any other handling), and the same wrap and
conversion hold for `P(c)` at further sampled capital letters `c`. -/
theorem C6_probability_first :
    wrap_math_in_text (str "P(A)") = str "$P(A)$" ∧
    auto_wrap_mathematical_expressions (str "P(A)") = str "$P(A)$" ∧
    fallback_latex_to_speech (str "P(A)") = str "probability of A" ∧
    latex_to_speech[0]? = some probability_rule ∧
    ((str "BXZ").all (fun c =>
      wrap_math_in_text (str "P(" ++ [c] ++ str ")") == str "$P(" ++ [c] ++ str ")$" &&
      fallback_latex_to_speech (str "P(" ++ [c] ++ str ")")
        == str "probability of " ++ [c])) = true := by
  refine ⟨by decide, by decide, by decide, by decide, by decide⟩

end Mdaudiobook
